import Mathlib

/-!
Verification of the audio-analysis pipeline in `src/main.py`
(feature extraction, heuristic genre classification, request handling).

Modelling conventions for the shallow embedding:
  * Python floats are modelled as rationals; the non-finite float values
    (NaN and the infinities) are collapsed into one marker `FVal.nonFinite`,
    since the code never distinguishes them.  Comparisons against a
    non-finite value are `false`, matching NaN comparison semantics.
  * Python ints are kept separate (`FVal.int`) because list indexing
    (`KEYS[features['key']]`) only accepts an int.
  * `np.mean` of an empty sequence yields NaN (modelled as `none`);
    elementwise division by an exact zero yields a non-finite float.
  * External signal-analysis primitives (librosa tempo/chroma/hpss/plp/
    mfcc/centroid/zcr/rms, and the transcendental functions log10 and
    sqrt) are inputs to the model: the code consumes their outputs.
  * Effectful steps of the HTTP handler (the download and the decode)
    are modelled by a `World` record carrying their outcomes; the handler
    additionally reports which pipeline stages it ran.
-/

/-- A Python numeric value as it flows through the pipeline: an int,
a finite float (as a rational), or a non-finite float (NaN/Inf). -/
inductive FVal where
  | int (n : ℤ)
  | num (q : ℚ)
  | nonFinite
deriving DecidableEq, Repr

/-- The rational content of a finite value; `none` for NaN/Inf. -/
def FVal.toRat? : FVal → Option ℚ
  | .int n => some (n : ℚ)
  | .num q => some q
  | .nonFinite => none

/-- Python `a < b` on numbers: false whenever either side is NaN. -/
def fvLt (a b : FVal) : Bool :=
  match a.toRat?, b.toRat? with
  | some x, some y => decide (x < y)
  | _, _ => false

/-- Python `a <= b` on numbers: false whenever either side is NaN. -/
def fvLe (a b : FVal) : Bool :=
  match a.toRat?, b.toRat? with
  | some x, some y => decide (x ≤ y)
  | _, _ => false

/-- Python `a > b` on numbers. -/
def fvGt (a b : FVal) : Bool := fvLt b a

/-- Python `a >= b` on numbers. -/
def fvGe (a b : FVal) : Bool := fvLe b a

/-- Python dict read `d.get(k)` / `d[k]` on a string-keyed dict,
modelled as an association list kept in insertion order. -/
def dictGet {α : Type} (d : List (String × α)) (k : String) : Option α :=
  (d.find? (fun e => e.1 == k)).map Prod.snd

/-- Python `round` ties-to-even on the integers (`round(q)`). -/
def roundHalfEven (q : ℚ) : ℤ :=
  let f := ⌊q⌋
  let r := q - (f : ℚ)
  if r < 1 / 2 then f
  else if 1 / 2 < r then f + 1
  else if f % 2 = 0 then f else f + 1

/-- Python `round(q, n)` (banker's rounding at `n` decimal places; the
tiny binary-float representation error of CPython's round is ignored —
no claim depends on a half-way case). -/
def pyRound (q : ℚ) (n : ℕ) : ℚ :=
  (roundHalfEven (q * 10 ^ n) : ℚ) / 10 ^ n

/-- The classifier's result dict `{"genre": ..., "confidence": ...}`. -/
structure GenrePrediction where
  genre : String
  confidence : ℚ
deriving DecidableEq, Repr

/-- The fixed rule table of `predict_genre_from_features` (main.py 90-118):
each genre with its ordered list of boolean predicates, evaluated at the
six feature values read from the input dict. -/
def genre_rules (tempo mfcc_0 mfcc_1 zcr centroid loudness : FVal) :
    List (String × List Bool) :=
  [("Afrobeats",
     [fvGe tempo (.int 95) && fvLe tempo (.int 125),
      fvGt mfcc_1 (.int 120),
      fvGe zcr (.num (25 / 1000)) && fvLe zcr (.num (5 / 100)),
      fvGe centroid (.int 1800) && fvLe centroid (.int 3000)]),
   ("R&B",
     [fvLt tempo (.int 90),
      fvLt mfcc_0 (.int (-200)),
      fvLt centroid (.int 2000),
      fvLt loudness (.int (-5))]),
   ("Hip-Hop",
     [fvGe tempo (.int 80) && fvLe tempo (.int 110),
      fvGt mfcc_0 (.int (-190)) && fvLt mfcc_0 (.int (-130)),
      fvGe zcr (.num (15 / 1000)) && fvLe zcr (.num (35 / 1000))]),
   ("Electronic/Pop",
     [fvGt tempo (.int 120),
      fvGt centroid (.int 3500),
      fvGt zcr (.num (5 / 100))]),
   ("Dancehall/Pop",
     [fvGe tempo (.int 100) && fvLe tempo (.int 130),
      fvGt loudness (.int (-6)),
      fvGt centroid (.int 2500)])]

/-- main.py line 120: `{genre: (sum(conds), len(conds)) for ...}` —
per genre, the number of satisfied predicates and the total count. -/
def scoreTriples (tempo mfcc_0 mfcc_1 zcr centroid loudness : FVal) :
    List (String × ℕ × ℕ) :=
  (genre_rules tempo mfcc_0 mfcc_1 zcr centroid loudness).map
    (fun gc => (gc.1, gc.2.count true, gc.2.length))

/-- The sort key of main.py line 121: `passed / total`. -/
def scoreOf (x : String × ℕ × ℕ) : ℚ := (x.2.1 : ℚ) / (x.2.2 : ℚ)

/-- Python `max(l, key=f)`: scans left to right and replaces the current
best only on a strictly greater key, so the first maximal element wins;
raises (here: `none`) on an empty sequence. -/
def pyMaxBy {α : Type} (f : α → ℚ) : List α → Option α
  | [] => none
  | x :: xs => some (xs.foldl (fun b y => if f b < f y then y else b) x)

/-- `predict_genre_from_features` (main.py 82-127).  `features["tempo"]`
is an unguarded lookup (KeyError → `none`); the other five reads use
`.get(key, 0)`.  Returns the best-scoring genre, overridden to
("Unknown", 0.0) when the winning score is below 0.5. -/
def predict_genre_from_features (features : List (String × FVal)) :
    Option GenrePrediction :=
  match dictGet features "tempo" with
  | none => none
  | some tempo =>
    let mfcc_0 := (dictGet features "mfcc_0").getD (.int 0)
    let mfcc_1 := (dictGet features "mfcc_1").getD (.int 0)
    let zcr := (dictGet features "zero_crossing_rate").getD (.int 0)
    let centroid := (dictGet features "spectral_centroid").getD (.int 0)
    let loudness := (dictGet features "loudness_db").getD (.int 0)
    let scores := scoreTriples tempo mfcc_0 mfcc_1 zcr centroid loudness
    match pyMaxBy scoreOf scores with
    | none => none
    | some best =>
      let confidence : ℚ := (best.2.1 : ℚ) / (best.2.2 : ℚ)
      if confidence < 1 / 2 then some ⟨"Unknown", 0⟩
      else some ⟨best.1, pyRound confidence 2⟩

/-- The maximum of the per-genre scores (0 on an empty table). -/
def specMaxScore (scores : List (String × ℚ)) : ℚ :=
  match scores with
  | [] => 0
  | s :: rest => rest.foldl (fun a b => max a b.2) s.2

/-- Spec-side classifier, following the words of the specification:
"for each genre compute score = (count of predicates that evaluate true)
/ (total predicate count); select the genre with the maximum score,
first-declared genre winning ties; if the winning score < 0.5 return
("Unknown", 0.0), otherwise the winning label with the score rounded to
2 decimal places."  To be compared with `predict_genre_from_features`. -/
def classifierSpec (tempo mfcc_0 mfcc_1 zcr centroid loudness : FVal) :
    GenrePrediction :=
  let scores := (genre_rules tempo mfcc_0 mfcc_1 zcr centroid loudness).map
    (fun gc => (gc.1, (gc.2.count true : ℚ) / (gc.2.length : ℚ)))
  match scores.find? (fun gs => gs.2 == specMaxScore scores) with
  | some gs => if gs.2 < 1 / 2 then ⟨"Unknown", 0⟩ else ⟨gs.1, pyRound gs.2 2⟩
  | none => ⟨"Unknown", 0⟩

section
attribute [local semireducible] Rat.add Rat.mul Rat.inv Rat.sub

example : predict_genre_from_features
    [("tempo", .num 110), ("mfcc_1", .num 130),
     ("zero_crossing_rate", .num (3 / 100)), ("spectral_centroid", .num 2200),
     ("loudness_db", .num (-4)), ("mfcc_0", .num (-150))] =
    some ⟨"Afrobeats", 1⟩ := by decide

example : predict_genre_from_features
    [("tempo", .num 70), ("mfcc_0", .num (-250)),
     ("spectral_centroid", .num 1500), ("loudness_db", .num (-10))] =
    some ⟨"R&B", 1⟩ := by decide

example : classifierSpec (.num 110) (.num (-150)) (.num 130) (.num (3 / 100))
    (.num 2200) (.num (-4)) = ⟨"Afrobeats", 1⟩ := by decide

end

/-- The ε guard of main.py (`1e-10`). -/
def epsG : ℚ := 1 / 10 ^ 10

/-- `np.mean` over a 1-d array of finite floats: `none` (NaN) on an
empty array, otherwise the arithmetic mean. -/
def npMeanQ (xs : List ℚ) : Option ℚ :=
  if xs.isEmpty then none else some (xs.sum / (xs.length : ℚ))

/-- Package an optional rational as a float value. -/
def toFVal : Option ℚ → FVal
  | none => .nonFinite
  | some q => .num q

/-- `np.mean` over an array that may already hold non-finite entries:
NaN on an empty array, NaN as soon as one entry is non-finite. -/
def fvMean (xs : List FVal) : FVal :=
  match xs.mapM FVal.toRat? with
  | none => .nonFinite
  | some rs => toFVal (npMeanQ rs)

/-- Python slice `xs[1::2]` (entries at odd indices). -/
def oddStride : List ℚ → List ℚ
  | [] => []
  | [_] => []
  | _ :: y :: rest => y :: oddStride rest

/-- Maximum of a list of rationals (0 only for the empty list, which
the callers exclude). -/
def listMaxQ : List ℚ → ℚ
  | [] => 0
  | x :: xs => xs.foldl max x

/-- `np.argmax`: index of the first occurrence of the maximum value;
`none` (ValueError) on an empty array; a NaN entry wins, first NaN
first, matching numpy's comparison propagation. -/
def npArgmax (l : List FVal) : Option ℕ :=
  match l with
  | [] => none
  | _ :: _ =>
    match l.findIdx? (fun v => v == FVal.nonFinite) with
    | some i => some i
    | none => some (l.findIdx (fun v => v.toRat? == some (listMaxQ (l.filterMap FVal.toRat?))))

/-- The outputs of the external signal-analysis primitives for one
decoded waveform, plus the waveform itself and the two transcendental
functions (on arguments where their float value is finite) that the
derived-feature formulas consume. -/
structure ExtractIn where
  tempo : ℚ
  chroma : List (List ℚ)
  yHarmonic : List ℚ
  yPercussive : List ℚ
  pulse : List ℚ
  mfccs : List (List ℚ)
  duration : ℚ
  rms : List ℚ
  centroidFrames : List ℚ
  zcrFrames : List ℚ
  y : List ℚ
  log10 : ℚ → ℚ
  sqrt : ℚ → ℚ

/-- `10 * np.log10(np.mean(rms) + 1e-10)` (main.py line 72):
non-finite when the mean is NaN or the log argument is ≤ 0. -/
def loudnessDbVal (ein : ExtractIn) : FVal :=
  match npMeanQ ein.rms with
  | none => .nonFinite
  | some m => if 0 < m + epsG then .num (10 * ein.log10 (m + epsG)) else .nonFinite

/-- `np.mean(y_percussive ** 2)` (main.py line 73). -/
def percussiveStrengthVal (ein : ExtractIn) : FVal :=
  toFVal (npMeanQ (ein.yPercussive.map (fun s => s ^ 2)))

/-- `np.std(pulse)` (main.py line 74): the population standard
deviation, the square root taken by the external primitive. -/
def polyrhythmScoreVal (ein : ExtractIn) : FVal :=
  match npMeanQ ein.pulse with
  | none => .nonFinite
  | some m =>
    match npMeanQ (ein.pulse.map (fun p => (p - m) ^ 2)) with
    | none => .nonFinite
    | some v => .num (ein.sqrt v)

/-- `np.mean(pulse[1::2]) / (np.mean(pulse) + 1e-10)` (main.py 75). -/
def offbeatEmphasisVal (ein : ExtractIn) : FVal :=
  match npMeanQ (oddStride ein.pulse), npMeanQ ein.pulse with
  | some a, some m => if m + epsG = 0 then .nonFinite else .num (a / (m + epsG))
  | _, _ => .nonFinite

/-- `np.mean(y_harmonic / (y + 1e-10))` (main.py line 76): elementwise
division, a zero denominator yielding a non-finite entry that then
poisons the mean. -/
def harmonicRatioVal (ein : ExtractIn) : FVal :=
  fvMean (List.zipWith
    (fun h s => if s + epsG = 0 then FVal.nonFinite else FVal.num (h / (s + epsG)))
    ein.yHarmonic ein.y)

/-- The feature dict literal of main.py lines 68-80, in insertion
order, given the already-computed chroma argmax `key_idx`. -/
def featuresList (ein : ExtractIn) (key_idx : ℕ) : List (String × FVal) :=
  [("tempo", FVal.num ein.tempo),
   ("key", FVal.int (key_idx : ℤ)),
   ("duration", FVal.num ein.duration),
   ("loudness_db", loudnessDbVal ein),
   ("percussive_strength", percussiveStrengthVal ein),
   ("polyrhythm_score", polyrhythmScoreVal ein),
   ("offbeat_emphasis", offbeatEmphasisVal ein),
   ("harmonic_ratio", harmonicRatioVal ein),
   ("spectral_centroid", toFVal (npMeanQ ein.centroidFrames)),
   ("zero_crossing_rate", toFVal (npMeanQ ein.zcrFrames))]
  ++ (ein.mfccs.take 5).enum.map (fun p => ("mfcc_" ++ toString p.1, toFVal (npMeanQ p.2)))

/-- `extract_african_features` (main.py 59-80).  Fails (raises) when
`np.argmax` sees an empty chroma, or when the harmonic waveform and the
input waveform cannot be divided elementwise (shape mismatch; numpy
length-1 broadcasting is not exercised by hpss outputs and is modelled
as a mismatch).  No finiteness check is performed anywhere. -/
def extract_african_features (ein : ExtractIn) : Except String (List (String × FVal)) :=
  match npArgmax (ein.chroma.map (fun row => toFVal (npMeanQ row))) with
  | none => .error "attempt to get argmax of an empty sequence"
  | some key_idx =>
    if ein.yHarmonic.length = ein.y.length then .ok (featuresList ein key_idx)
    else .error "operands could not be broadcast together"

/-- The 12-entry pitch-class label table (main.py line 50). -/
def KEYS : List String :=
  "C" :: "C#" :: "D" :: "D#" :: "E" :: "F" ::
    "F#" :: "G" :: "G#" :: "A" :: "A#" :: "B" :: []

/-- Python list indexing `xs[n]`: nonnegative indices in range, negative
indices wrapping once; anything else raises (here: `none`). -/
def pyListGet (xs : List String) (n : ℤ) : Option String :=
  if 0 ≤ n then xs.get? n.toNat
  else if (-n).toNat ≤ xs.length then xs.get? (xs.length - (-n).toNat)
  else none

/-- The request model `AudioAnalyzeRequest` (main.py 52-57), with the
documented defaults. -/
structure AudioAnalyzeRequest where
  songId : String
  audioUrl : String
  analyze_mfcc : Bool := true
  analyze_structure : Bool := false
  predict_genre : Bool := true

/-- Outcomes of the two effectful steps of one request: the HTTP fetch
(`requests.get` + `raise_for_status`, main.py 132-134) and the decode
plus signal-analysis primitives (`librosa.load` and the library calls,
main.py 143 and 60-66).  An `Except.error` carries the exception text. -/
structure World where
  download : Except String Unit
  load : Except String ExtractIn

/-- Pipeline stages, recorded so that short-circuiting is observable. -/
inductive Stage where
  | download
  | decode
  | extract
  | classify
deriving DecidableEq, Repr

/-- A value of the JSON response mapping: a string, a number, or the
nested `mfccs` mapping. -/
inductive RVal where
  | str (s : String)
  | val (v : FVal)
  | sub (m : List (String × FVal))
deriving DecidableEq, Repr

/-- The two failure shapes `analyze_audio` can produce: HTTP 400
"Download failed: ..." (main.py 136) and HTTP 500 "Audio processing
error: ..." (main.py 171). -/
inductive AnalyzeError where
  | downloadFailed (detail : String)
  | processingError (detail : String)
deriving DecidableEq, Repr

/-- What one call of the handler yields: the response (or error), the
stages that actually ran, and the feature vector that was computed (if
extraction ran to completion). -/
structure AnalyzeOutcome where
  resp : Except AnalyzeError (List (String × RVal))
  stages : List Stage
  featuresComputed : Option (List (String × FVal))

/-- `round(float(v), n)`: NaN/Inf pass through unchanged (`round` of a
non-finite float is that float, not an exception). -/
def pyRoundF (v : FVal) (n : ℕ) : FVal :=
  match v with
  | .nonFinite => .nonFinite
  | .int k => .num (pyRound (k : ℚ) n)
  | .num q => .num (pyRound q n)

/-- `KEYS[features['key']]` (main.py 150): only an int value indexes a
list; out-of-range raises IndexError. -/
def keyLabelOf (kv : FVal) : Option String :=
  match kv with
  | .int n => pyListGet KEYS n
  | _ => none

/-- The `mfccs` sub-dict (main.py 157-161): every feature whose name
starts with `mfcc_`, each value rounded to 4 decimal places. -/
def mfccsField (features : List (String × FVal)) : List (String × FVal) :=
  (features.filter (fun e => e.1.startsWith "mfcc_")).map (fun e => (e.1, pyRoundF e.2 4))

/-- Building the response dict from the feature vector (main.py
146-168): the seven always-present fields, then `mfccs` when
`analyze_mfcc`, then the two genre fields when `predict_genre`.  Any
exception inside the `try` block surfaces as the generic 500 error; the
returned Bool records whether the classifier was invoked. -/
def formatResponse (req : AudioAnalyzeRequest) (features : List (String × FVal)) :
    Except AnalyzeError (List (String × RVal)) × Bool :=
  match dictGet features "tempo", dictGet features "duration", dictGet features "key",
        dictGet features "loudness_db", dictGet features "spectral_centroid",
        dictGet features "zero_crossing_rate" with
  | some tv, some dv, some kv, some lv, some cv, some zv =>
    (match keyLabelOf kv with
     | none => (.error (.processingError "Audio processing error: key lookup"), false)
     | some keyLabel =>
       let base : List (String × RVal) :=
         [("songId", RVal.str req.songId),
          ("tempo", RVal.val (pyRoundF tv 0)),
          ("duration", RVal.val (pyRoundF dv 2)),
          ("key", RVal.str keyLabel),
          ("loudness_db", RVal.val (pyRoundF lv 2)),
          ("spectral_centroid", RVal.val (pyRoundF cv 2)),
          ("zero_crossing_rate", RVal.val (pyRoundF zv 4))]
       let withMfcc := base ++
         (if req.analyze_mfcc then [("mfccs", RVal.sub (mfccsField features))] else [])
       if req.predict_genre then
         match predict_genre_from_features features with
         | some p =>
           (.ok (withMfcc ++ [("predicted_genre", RVal.str p.genre),
                              ("confidence", RVal.val (.num p.confidence))]), true)
         | none => (.error (.processingError "Audio processing error: KeyError"), true)
       else (.ok withMfcc, false))
  | _, _, _, _, _, _ =>
    (.error (.processingError "Audio processing error: KeyError"), false)

/-- The `/analyze-audio` handler `analyze_audio` (main.py 129-171):
download, decode, extract, format (and classify when requested), each
failure short-circuiting with its stage's error. -/
def analyze_audio_fn (req : AudioAnalyzeRequest) (w : World) : AnalyzeOutcome :=
  match w.download with
  | .error e =>
    ⟨.error (.downloadFailed ("Download failed: " ++ e)), [.download], none⟩
  | .ok _ =>
    match w.load with
    | .error e =>
      ⟨.error (.processingError ("Audio processing error: " ++ e)), [.download, .decode], none⟩
    | .ok ein =>
      match extract_african_features ein with
      | .error e =>
        ⟨.error (.processingError ("Audio processing error: " ++ e)),
         [.download, .decode, .extract], none⟩
      | .ok features =>
        let fr := formatResponse req features
        ⟨fr.1, [.download, .decode, .extract] ++ (if fr.2 then [.classify] else []),
         some features⟩

/-- True exactly on a successful `Except`. -/
def exceptOk {ε α : Type} : Except ε α → Bool
  | .ok _ => true
  | .error _ => false

/-- The maximum of `f` over a nonempty list, seeded at the head (0 for
the empty list, which callers exclude). -/
def maxKeyList {α : Type} (f : α → ℚ) : List α → ℚ
  | [] => 0
  | x :: xs => xs.foldl (fun m y => max m (f y)) (f x)

theorem le_foldl_max {α : Type} (f : α → ℚ) :
    ∀ (ys : List α) (m : ℚ), m ≤ ys.foldl (fun a y => max a (f y)) m := by
  intro ys
  induction ys with
  | nil => intro m; simp
  | cons y ys ih =>
    intro m
    rw [List.foldl_cons]
    exact le_trans (le_max_left _ _) (ih (max m (f y)))

/-- Python's `max(..., key=f)` keeps the first maximal element: the
chosen element attains the maximum key and every element before it in
the list has a strictly smaller key. -/
theorem pyMaxBy_spec {α : Type} (f : α → ℚ) :
    ∀ (xs : List α) (x : α), ∃ pre r post,
      x :: xs = pre ++ r :: post ∧
      pyMaxBy f (x :: xs) = some r ∧
      f r = maxKeyList f (x :: xs) ∧
      ∀ a ∈ pre, f a < maxKeyList f (x :: xs) := by
  intro xs
  induction xs with
  | nil =>
    intro x
    exact ⟨[], x, [], rfl, rfl, rfl, by simp⟩
  | cons y ys ih =>
    intro x
    have hstep : pyMaxBy f (x :: y :: ys) =
        pyMaxBy f ((if f x < f y then y else x) :: ys) := by
      simp only [pyMaxBy, List.foldl_cons]
    have hM : maxKeyList f (x :: y :: ys) =
        maxKeyList f ((if f x < f y then y else x) :: ys) := by
      simp only [maxKeyList, List.foldl_cons]
      congr 1
      by_cases hxy : f x < f y
      · rw [if_pos hxy, max_eq_right (le_of_lt hxy)]
      · rw [if_neg hxy, max_eq_left (le_of_not_lt hxy)]
    by_cases hxy : f x < f y
    · rw [if_pos hxy] at hstep hM
      obtain ⟨pre, r, post, hdec, hmax, hkey, hpre⟩ := ih y
      refine ⟨x :: pre, r, post, ?_, ?_, ?_, ?_⟩
      · simpa using congrArg (x :: ·) hdec
      · rw [hstep, hmax]
      · rw [hM, hkey]
      · intro a ha
        rw [hM]
        rcases List.mem_cons.mp ha with h1 | h2
        · subst h1
          calc f a < f y := hxy
            _ ≤ maxKeyList f (y :: ys) := le_foldl_max f ys (f y)
        · exact hpre a h2
    · rw [if_neg hxy] at hstep hM
      obtain ⟨pre, r, post, hdec, hmax, hkey, hpre⟩ := ih x
      have hfy : f y ≤ f x := le_of_not_lt hxy
      cases pre with
      | nil =>
        simp only [List.nil_append] at hdec
        refine ⟨[], r, y :: ys, ?_, ?_, ?_, ?_⟩
        · rw [List.cons.injEq] at hdec
          simp [hdec.1]
        · rw [hstep, hmax]
        · rw [hM, hkey]
        · simp
      | cons p pre' =>
        rw [List.cons_append, List.cons.injEq] at hdec
        obtain ⟨hp, hys⟩ := hdec
        refine ⟨x :: y :: pre', r, post, ?_, ?_, ?_, ?_⟩
        · rw [hys]; rfl
        · rw [hstep, hmax]
        · rw [hM, hkey]
        · intro a ha
          rw [hM]
          have hxlt : f x < maxKeyList f (x :: ys) := by
            apply hpre
            rw [hp]
            exact List.mem_cons_self p pre'
          rcases List.mem_cons.mp ha with h1 | h2
          · subst h1; exact hxlt
          · rcases List.mem_cons.mp h2 with h3 | h4
            · subst h3; exact lt_of_le_of_lt hfy hxlt
            · exact hpre a (List.mem_cons_of_mem p h4)

/-- `pyMaxBy` returns exactly the first element attaining the maximal
key, as `List.find?` does. -/
theorem pyMaxBy_eq_find? {α : Type} (f : α → ℚ) (x : α) (xs : List α) :
    ∃ r, pyMaxBy f (x :: xs) = some r ∧ f r = maxKeyList f (x :: xs) ∧
      (x :: xs).find? (fun a => f a == maxKeyList f (x :: xs)) = some r := by
  obtain ⟨pre, r, post, hdec, hmax, hkey, hpre⟩ := pyMaxBy_spec f xs x
  refine ⟨r, hmax, hkey, ?_⟩
  rw [hdec, List.find?_append]
  have hnone : pre.find? (fun a => f a == maxKeyList f (x :: xs)) = none := by
    rw [List.find?_eq_none]
    intro a ha
    simp only [Bool.not_eq_true, beq_eq_false_iff_ne]
    exact ne_of_lt (hpre a ha)
  rw [hdec] at hnone hkey
  rw [hnone]
  simp only [Option.none_or, List.find?_cons]
  rw [← hdec] at hkey
  have : (f r == maxKeyList f (x :: xs)) = true := beq_iff_eq.mpr hkey
  rw [hdec] at this
  rw [this]

/-- The score table the classifier computes for a given feature dict
(the defaulted reads of main.py 84-88 feeding line 120). -/
def classifierScores (features : List (String × FVal)) : List (String × ℕ × ℕ) :=
  scoreTriples ((dictGet features "tempo").getD (.int 0))
    ((dictGet features "mfcc_0").getD (.int 0))
    ((dictGet features "mfcc_1").getD (.int 0))
    ((dictGet features "zero_crossing_rate").getD (.int 0))
    ((dictGet features "spectral_centroid").getD (.int 0))
    ((dictGet features "loudness_db").getD (.int 0))

theorem scoreTriples_ne_nil (tempo m0 m1 z c l : FVal) :
    scoreTriples tempo m0 m1 z c l ≠ [] := by
  simp [scoreTriples, genre_rules]


theorem specMaxScore_map (x : String × ℕ × ℕ) (xs : List (String × ℕ × ℕ)) :
    specMaxScore ((x :: xs).map (fun a => (a.1, scoreOf a)))
      = maxKeyList scoreOf (x :: xs) := by
  simp only [List.map_cons, specMaxScore, List.foldl_map, maxKeyList]

/-- The selection core shared by the classifier and the spec-side
classifier, over an arbitrary nonempty score table. -/
theorem sel_core (ts : List (String × ℕ × ℕ)) (hne : ts ≠ []) :
    (match pyMaxBy scoreOf ts with
     | none => (none : Option GenrePrediction)
     | some best =>
       if ((best.2.1 : ℚ) / (best.2.2 : ℚ)) < 1 / 2 then some ⟨"Unknown", 0⟩
       else some ⟨best.1, pyRound ((best.2.1 : ℚ) / (best.2.2 : ℚ)) 2⟩)
    = some (match (ts.map (fun a => (a.1, scoreOf a))).find?
        (fun gs => gs.2 == specMaxScore (ts.map (fun a => (a.1, scoreOf a)))) with
      | some gs => if gs.2 < 1 / 2 then (⟨"Unknown", 0⟩ : GenrePrediction)
                   else ⟨gs.1, pyRound gs.2 2⟩
      | none => ⟨"Unknown", 0⟩) := by
  rcases ts with _ | ⟨x, xs⟩
  · exact absurd rfl hne
  obtain ⟨r, hmax, hkey, hfind⟩ := pyMaxBy_eq_find? scoreOf x xs
  rw [hmax, List.find?_map]
  have hpred : ((fun gs : String × ℚ =>
        gs.2 == specMaxScore ((x :: xs).map (fun a => (a.1, scoreOf a)))) ∘
        (fun a : String × ℕ × ℕ => (a.1, scoreOf a)))
      = fun a => scoreOf a == maxKeyList scoreOf (x :: xs) := by
    funext a
    simp only [Function.comp_apply, specMaxScore_map]
  rw [hpred, hfind]
  have hsc : scoreOf r = (r.2.1 : ℚ) / (r.2.2 : ℚ) := rfl
  show (if ((r.2.1 : ℚ) / (r.2.2 : ℚ)) < 1 / 2 then some (⟨"Unknown", 0⟩ : GenrePrediction)
        else some ⟨r.1, pyRound ((r.2.1 : ℚ) / (r.2.2 : ℚ)) 2⟩)
      = some (if scoreOf r < 1 / 2 then (⟨"Unknown", 0⟩ : GenrePrediction)
        else ⟨r.1, pyRound (scoreOf r) 2⟩)
  by_cases hc : scoreOf r < 1 / 2
  · rw [← hsc, if_pos hc, if_pos hc]
  · rw [← hsc, if_neg hc, if_neg hc]

set_option maxHeartbeats 1000000 in
/-- The selection of `predict_genre_from_features` agrees with
`classifierSpec` on any six feature values. -/
theorem predict_core_eq_spec (tempo m0 m1 z c l : FVal) :
    (match pyMaxBy scoreOf (scoreTriples tempo m0 m1 z c l) with
     | none => (none : Option GenrePrediction)
     | some best =>
       if ((best.2.1 : ℚ) / (best.2.2 : ℚ)) < 1 / 2 then some ⟨"Unknown", 0⟩
       else some ⟨best.1, pyRound ((best.2.1 : ℚ) / (best.2.2 : ℚ)) 2⟩)
    = some (classifierSpec tempo m0 m1 z c l) := by
  have hne : genre_rules tempo m0 m1 z c l ≠ [] := by simp [genre_rules]
  simp only [scoreTriples, classifierSpec]
  revert hne
  generalize genre_rules tempo m0 m1 z c l = rs
  intro hne
  have hmaps : rs.map (fun gc => ((gc.1 : String), ((gc.2.count true : ℚ) / (gc.2.length : ℚ))))
      = (rs.map (fun gc => (gc.1, gc.2.count true, gc.2.length))).map
          (fun a => (a.1, scoreOf a)) := by
    rw [List.map_map]
    rfl
  rw [hmaps]
  have hne2 : rs.map (fun gc => (gc.1, gc.2.count true, gc.2.length)) ≠ [] := by
    simpa using hne
  exact sel_core _ hne2

section ClaimTheorems

attribute [local semireducible] Rat.add Rat.mul Rat.inv Rat.sub

/-- Claim C1: for every FeatureVector containing the required keys, the
classifier computes per-genre scores (true predicates / predicate
count), selects the maximum-score genre, returns ("Unknown", 0.0) when
the winning score is < 0.5 and otherwise the winning label with the
score rounded to 2 decimal places — i.e. it agrees with the spec-side
`classifierSpec` on the values read from the dict. -/
theorem genre_classifier_meets_contract (features : List (String × FVal)) (t : FVal)
    (h : dictGet features "tempo" = some t) :
    predict_genre_from_features features =
      some (classifierSpec t
        ((dictGet features "mfcc_0").getD (.int 0))
        ((dictGet features "mfcc_1").getD (.int 0))
        ((dictGet features "zero_crossing_rate").getD (.int 0))
        ((dictGet features "spectral_centroid").getD (.int 0))
        ((dictGet features "loudness_db").getD (.int 0))) := by
  simp only [predict_genre_from_features, h]
  exact predict_core_eq_spec t _ _ _ _ _

/-- A FeatureVector satisfying all three Electronic/Pop predicates. -/
def electroScenario : List (String × FVal) :=
  [("tempo", .num 128), ("spectral_centroid", .num 3600),
   ("zero_crossing_rate", .num (6 / 100))]

theorem genre_classifier_meets_contract_witness :
    dictGet electroScenario "tempo" = some (.num 128) ∧
    predict_genre_from_features electroScenario =
      some (classifierSpec (.num 128)
        ((dictGet electroScenario "mfcc_0").getD (.int 0))
        ((dictGet electroScenario "mfcc_1").getD (.int 0))
        ((dictGet electroScenario "zero_crossing_rate").getD (.int 0))
        ((dictGet electroScenario "spectral_centroid").getD (.int 0))
        ((dictGet electroScenario "loudness_db").getD (.int 0))) :=
  ⟨by decide, genre_classifier_meets_contract electroScenario (.num 128) (by decide)⟩

/-- The round-trip FeatureVector of the spec's Afrobeats scenario. -/
def afrobeatsScenario : List (String × FVal) :=
  [("tempo", .num 110), ("mfcc_1", .num 130),
   ("zero_crossing_rate", .num (3 / 100)), ("spectral_centroid", .num 2200),
   ("loudness_db", .num (-4)), ("mfcc_0", .num (-150))]

/-- Claim C3: on the FeatureVector {tempo=110, mfcc_1=130,
zero_crossing_rate=0.03, spectral_centroid=2200, loudness_db=-4,
mfcc_0=-150} the classifier returns ("Afrobeats", 1.0), although the
Hip-Hop rule also scores 3 of 3, so the tie-break decides. -/
theorem afrobeats_roundtrip_scenario :
    predict_genre_from_features afrobeatsScenario = some ⟨"Afrobeats", 1⟩ ∧
    dictGet (classifierScores afrobeatsScenario) "Hip-Hop" = some (3, 3) ∧
    dictGet (classifierScores afrobeatsScenario) "Afrobeats" = some (4, 4) := by
  refine ⟨by decide, by decide, by decide⟩

/-- The spec's R&B scenario: no `mfcc_1` and no `zero_crossing_rate`
key, so the classifier's `.get(key, 0)` defaults are exercised. -/
def rnbScenario : List (String × FVal) :=
  [("tempo", .num 70), ("mfcc_0", .num (-250)),
   ("spectral_centroid", .num 1500), ("loudness_db", .num (-10))]

/-- Claim C9: the classifier defaults every absent key except "tempo"
to 0 and still classifies (the R&B scenario relies on it), whereas a
FeatureVector without "tempo" makes classification fail. -/
theorem classifier_missing_key_behaviour :
    (∀ fs : List (String × FVal), dictGet fs "tempo" = none →
      predict_genre_from_features fs = none) ∧
    (∀ (fs : List (String × FVal)) (t : FVal), dictGet fs "tempo" = some t →
      (predict_genre_from_features fs).isSome = true) ∧
    predict_genre_from_features rnbScenario = some ⟨"R&B", 1⟩ := by
  refine ⟨?_, ?_, by decide⟩
  · intro fs h
    simp [predict_genre_from_features, h]
  · intro fs t h
    simp only [predict_genre_from_features, h]
    rw [predict_core_eq_spec]
    rfl

theorem classifier_missing_key_behaviour_witness :
    predict_genre_from_features [("loudness_db", FVal.num (-4))] = none :=
  classifier_missing_key_behaviour.1 [("loudness_db", FVal.num (-4))] (by decide)

/-- Claim C2: when several genres share the maximum score the
classifier selects the one declared first in the rule table: whenever
the genre at position j attains the maximum, the selected genre sits at
a position i ≤ j, attains the maximum too, and (when the maximum
reaches 0.5) is the label the classifier returns. -/
theorem classifier_tiebreak_first_declared
    (features : List (String × FVal)) (t : FVal)
    (h : dictGet features "tempo" = some t) (j : ℕ) (a : String × ℕ × ℕ)
    (ha : (classifierScores features)[j]? = some a)
    (hatt : scoreOf a = maxKeyList scoreOf (classifierScores features)) :
    ∃ (i : ℕ) (b : String × ℕ × ℕ), i ≤ j ∧
      (classifierScores features)[i]? = some b ∧
      scoreOf b = maxKeyList scoreOf (classifierScores features) ∧
      ((1 : ℚ) / 2 ≤ maxKeyList scoreOf (classifierScores features) →
        predict_genre_from_features features =
          some ⟨b.1, pyRound (maxKeyList scoreOf (classifierScores features)) 2⟩) := by
  rcases hS : classifierScores features with _ | ⟨x, xs⟩
  · exact absurd hS (scoreTriples_ne_nil _ _ _ _ _ _)
  obtain ⟨pre, r, post, hdec, hmax, hkey, hpre⟩ := pyMaxBy_spec scoreOf xs x
  rw [hS] at ha hatt
  refine ⟨pre.length, r, ?_, ?_, hkey, ?_⟩
  · by_contra hji
    push_neg at hji
    have hja : (x :: xs)[j]? = pre[j]? := by
      rw [hdec]
      exact List.getElem?_append_left hji
    rw [hja] at ha
    obtain ⟨hlt, hget⟩ := List.getElem?_eq_some.mp ha
    have hmem : a ∈ pre := by
      rw [← hget]
      exact List.getElem_mem hlt
    exact absurd hatt (ne_of_lt (hpre a hmem))
  · rw [hdec, List.getElem?_append_right (le_refl pre.length)]
    simp
  · intro hge
    simp only [predict_genre_from_features, h]
    have hcs : scoreTriples t ((dictGet features "mfcc_0").getD (.int 0))
        ((dictGet features "mfcc_1").getD (.int 0))
        ((dictGet features "zero_crossing_rate").getD (.int 0))
        ((dictGet features "spectral_centroid").getD (.int 0))
        ((dictGet features "loudness_db").getD (.int 0)) = x :: xs := by
      rw [← hS]
      simp [classifierScores, h]
    rw [hcs, hmax]
    have h2 : (1 : ℚ) / 2 ≤ scoreOf r := by rw [hkey]; exact hge
    have hnlt : ¬ ((r.2.1 : ℚ) / (r.2.2 : ℚ)) < 1 / 2 := not_lt.mpr h2
    show (if ((r.2.1 : ℚ) / (r.2.2 : ℚ)) < 1 / 2 then some (⟨"Unknown", 0⟩ : GenrePrediction)
          else some ⟨r.1, pyRound ((r.2.1 : ℚ) / (r.2.2 : ℚ)) 2⟩)
        = some ⟨r.1, pyRound (maxKeyList scoreOf (x :: xs)) 2⟩
    rw [if_neg hnlt, ← hkey]
    rfl

theorem classifier_tiebreak_first_declared_witness :
    ∃ (i : ℕ) (b : String × ℕ × ℕ), i ≤ 2 ∧
      (classifierScores afrobeatsScenario)[i]? = some b ∧
      scoreOf b = maxKeyList scoreOf (classifierScores afrobeatsScenario) ∧
      ((1 : ℚ) / 2 ≤ maxKeyList scoreOf (classifierScores afrobeatsScenario) →
        predict_genre_from_features afrobeatsScenario =
          some ⟨b.1, pyRound (maxKeyList scoreOf (classifierScores afrobeatsScenario)) 2⟩) :=
  classifier_tiebreak_first_declared afrobeatsScenario (.num 110) (by decide)
    2 ("Hip-Hop", 3, 3) (by decide) (by decide)

theorem dictGet_filter_self {α : Type} (l : List (String × α)) (k : String) :
    dictGet (l.filter (fun e => !(e.1 == k))) k = none := by
  unfold dictGet
  rw [List.find?_eq_none.mpr]
  · rfl
  · intro x hx
    have hq := List.of_mem_filter hx
    simpa using hq

theorem extract_ok_inv (ein : ExtractIn) (fs : List (String × FVal))
    (h : extract_african_features ein = .ok fs) :
    ∃ k, npArgmax (ein.chroma.map (fun row => toFVal (npMeanQ row))) = some k ∧
      ein.yHarmonic.length = ein.y.length ∧ fs = featuresList ein k := by
  unfold extract_african_features at h
  rcases ha : npArgmax (ein.chroma.map (fun row => toFVal (npMeanQ row))) with _ | k
  · rw [ha] at h
    cases h
  · rw [ha] at h
    have h2 : (if ein.yHarmonic.length = ein.y.length
        then Except.ok (featuresList ein k)
        else (Except.error "operands could not be broadcast together"
          : Except String (List (String × FVal)))) = Except.ok fs := h
    by_cases hlen : ein.yHarmonic.length = ein.y.length
    · rw [if_pos hlen] at h2
      cases h2
      exact ⟨k, rfl, hlen, rfl⟩
    · rw [if_neg hlen] at h2
      cases h2

theorem featuresList_tempo (ein : ExtractIn) (k : ℕ) :
    dictGet (featuresList ein k) "tempo" = some (.num ein.tempo) := rfl

theorem featuresList_key (ein : ExtractIn) (k : ℕ) :
    dictGet (featuresList ein k) "key" = some (.int (k : ℤ)) := rfl

theorem featuresList_duration (ein : ExtractIn) (k : ℕ) :
    dictGet (featuresList ein k) "duration" = some (.num ein.duration) := rfl

theorem featuresList_loudness (ein : ExtractIn) (k : ℕ) :
    dictGet (featuresList ein k) "loudness_db" = some (loudnessDbVal ein) := rfl

theorem featuresList_centroid (ein : ExtractIn) (k : ℕ) :
    dictGet (featuresList ein k) "spectral_centroid"
      = some (toFVal (npMeanQ ein.centroidFrames)) := rfl

theorem featuresList_zcr (ein : ExtractIn) (k : ℕ) :
    dictGet (featuresList ein k) "zero_crossing_rate"
      = some (toFVal (npMeanQ ein.zcrFrames)) := rfl

theorem featuresList_hr (ein : ExtractIn) (k : ℕ) :
    dictGet (featuresList ein k) "harmonic_ratio" = some (harmonicRatioVal ein) := rfl

theorem predict_genre_isSome (features : List (String × FVal)) (t : FVal)
    (h : dictGet features "tempo" = some t) :
    ∃ p, predict_genre_from_features features = some p := by
  simp only [predict_genre_from_features, h]
  rw [predict_core_eq_spec]
  exact ⟨_, rfl⟩

theorem foldl_max_mem : ∀ (qs : List ℚ) (q : ℚ), qs.foldl max q ∈ q :: qs := by
  intro qs
  induction qs with
  | nil => intro q; simp
  | cons y ys ih =>
    intro q
    rw [List.foldl_cons]
    have hmem := ih (max q y)
    rcases max_choice q y with h | h <;> rw [h] at hmem ⊢
    · rcases List.mem_cons.mp hmem with h1 | h2
      · rw [h1]; exact List.mem_cons_self q (y :: ys)
      · exact List.mem_cons_of_mem q (List.mem_cons_of_mem y h2)
    · rcases List.mem_cons.mp hmem with h1 | h2
      · rw [h1]; exact List.mem_cons_of_mem q (List.mem_cons_self y ys)
      · exact List.mem_cons_of_mem q (List.mem_cons_of_mem y h2)

theorem listMaxQ_mem (rs : List ℚ) (hne : rs ≠ []) : listMaxQ rs ∈ rs := by
  rcases rs with _ | ⟨q, qs⟩
  · exact absurd rfl hne
  · exact foldl_max_mem qs q

theorem npArgmax_lt (l : List FVal) (i : ℕ) (h : npArgmax l = some i) :
    i < l.length := by
  rcases l with _ | ⟨x, xs⟩
  · cases h
  unfold npArgmax at h
  rcases hf : (x :: xs).findIdx? (fun v => v == FVal.nonFinite) with _ | j
  · rw [hf] at h
    have hall := List.findIdx?_eq_none_iff.mp hf
    have hx : FVal.toRat? x ≠ none := by
      intro hxn
      have hxb := hall x (List.mem_cons_self x xs)
      cases x with
      | int n => cases hxn
      | num q => cases hxn
      | nonFinite => simp at hxb
    rcases hq : FVal.toRat? x with _ | qx
    · exact absurd hq hx
    have hmemf : qx ∈ (x :: xs).filterMap FVal.toRat? :=
      List.mem_filterMap.mpr ⟨x, List.mem_cons_self x xs, hq⟩
    have hfne : (x :: xs).filterMap FVal.toRat? ≠ [] := by
      intro hnil
      rw [hnil] at hmemf
      cases hmemf
    have hmmem := listMaxQ_mem _ hfne
    obtain ⟨v, hvmem, hvq⟩ := List.mem_filterMap.mp hmmem
    have hex : ∃ v ∈ x :: xs,
        (v.toRat? == some (listMaxQ ((x :: xs).filterMap FVal.toRat?))) = true :=
      ⟨v, hvmem, beq_iff_eq.mpr hvq⟩
    have := List.findIdx_lt_length.mpr hex
    cases h
    exact this
  · rw [hf] at h
    cases h
    have hne2 : ¬ ∀ v ∈ x :: xs, (v == FVal.nonFinite) = false := by
      intro hall
      rw [List.findIdx?_eq_none_iff.mpr hall] at hf
      cases hf
    push_neg at hne2
    obtain ⟨v, hvmem, hvne⟩ := hne2
    have hex : ∃ v ∈ x :: xs, (v == FVal.nonFinite) = true :=
      ⟨v, hvmem, by simpa using hvne⟩
    have := List.findIdx?_eq_some_of_exists hex
    rw [this] at hf
    cases hf
    exact List.findIdx_lt_length.mpr hex

/-- Claim C4: a request whose download fails never reaches the decoder
or the extractor — the handler returns the download-stage failure with
only the download stage run and no features computed. -/
theorem download_failure_short_circuits
    (req : AudioAnalyzeRequest) (w : World) (e : String)
    (hd : w.download = .error e) :
    (analyze_audio_fn req w).resp
      = .error (.downloadFailed ("Download failed: " ++ e)) ∧
    (analyze_audio_fn req w).stages = [.download] ∧
    Stage.decode ∉ (analyze_audio_fn req w).stages ∧
    Stage.extract ∉ (analyze_audio_fn req w).stages ∧
    (analyze_audio_fn req w).featuresComputed = none := by
  simp [analyze_audio_fn, hd]

/-- A request used to exercise the handler. -/
def sampleRequest : AudioAnalyzeRequest :=
  { songId := "song-1", audioUrl := "https://cdn.example/preview.mp3" }

/-- A world whose HTTP fetch came back 404. -/
def notFoundWorld : World :=
  ⟨.error "404 Client Error: Not Found", .error "unreached"⟩

theorem download_failure_short_circuits_witness :
    (analyze_audio_fn sampleRequest notFoundWorld).resp
      = .error (.downloadFailed ("Download failed: " ++ "404 Client Error: Not Found")) ∧
    (analyze_audio_fn sampleRequest notFoundWorld).stages = [.download] ∧
    Stage.decode ∉ (analyze_audio_fn sampleRequest notFoundWorld).stages ∧
    Stage.extract ∉ (analyze_audio_fn sampleRequest notFoundWorld).stages ∧
    (analyze_audio_fn sampleRequest notFoundWorld).featuresComputed = none :=
  download_failure_short_circuits sampleRequest notFoundWorld
    "404 Client Error: Not Found" rfl

/-- Successful response assembly, fully explicit. -/
theorem formatResponse_ok (req : AudioAnalyzeRequest) (features : List (String × FVal))
    (tv dv kv lv cv zv : FVal) (lbl : String) (p : GenrePrediction)
    (h1 : dictGet features "tempo" = some tv)
    (h2 : dictGet features "duration" = some dv)
    (h3 : dictGet features "key" = some kv)
    (h4 : dictGet features "loudness_db" = some lv)
    (h5 : dictGet features "spectral_centroid" = some cv)
    (h6 : dictGet features "zero_crossing_rate" = some zv)
    (h7 : keyLabelOf kv = some lbl)
    (h8 : predict_genre_from_features features = some p) :
    formatResponse req features =
      (.ok ([("songId", RVal.str req.songId),
             ("tempo", RVal.val (pyRoundF tv 0)),
             ("duration", RVal.val (pyRoundF dv 2)),
             ("key", RVal.str lbl),
             ("loudness_db", RVal.val (pyRoundF lv 2)),
             ("spectral_centroid", RVal.val (pyRoundF cv 2)),
             ("zero_crossing_rate", RVal.val (pyRoundF zv 4))]
        ++ (if req.analyze_mfcc then [("mfccs", RVal.sub (mfccsField features))] else [])
        ++ (if req.predict_genre then
              [("predicted_genre", RVal.str p.genre),
               ("confidence", RVal.val (.num p.confidence))] else [])),
       req.predict_genre) := by
  simp only [formatResponse, h1, h2, h3, h4, h5, h6, h7]
  by_cases hpg : req.predict_genre
  · simp [hpg, h8]
  · simp [hpg]

/-- Turning off `analyze_mfcc` only filters the `mfccs` field out of the
response assembly. -/
theorem formatResponse_mfcc_filter (req : AudioAnalyzeRequest)
    (features : List (String × FVal)) :
    (formatResponse { req with analyze_mfcc := false } features).1 =
      Except.map (List.filter (fun e => !(e.1 == "mfccs")))
        ((formatResponse { req with analyze_mfcc := true } features).1) := by
  rcases h1 : dictGet features "tempo" with _ | tv
  · simp [formatResponse, h1, Except.map]
  rcases h2 : dictGet features "duration" with _ | dv
  · simp [formatResponse, h1, h2, Except.map]
  rcases h3 : dictGet features "key" with _ | kv
  · simp [formatResponse, h1, h2, h3, Except.map]
  rcases h4 : dictGet features "loudness_db" with _ | lv
  · simp [formatResponse, h1, h2, h3, h4, Except.map]
  rcases h5 : dictGet features "spectral_centroid" with _ | cv
  · simp [formatResponse, h1, h2, h3, h4, h5, Except.map]
  rcases h6 : dictGet features "zero_crossing_rate" with _ | zv
  · simp [formatResponse, h1, h2, h3, h4, h5, h6, Except.map]
  rcases h7 : keyLabelOf kv with _ | lbl
  · simp [formatResponse, h1, h2, h3, h4, h5, h6, h7, Except.map]
  rcases h8 : predict_genre_from_features features with _ | p
  · by_cases hpg : req.predict_genre <;>
      simp [formatResponse, h1, h2, h3, h4, h5, h6, h7, h8, hpg, Except.map]
  · rw [formatResponse_ok _ _ tv dv kv lv cv zv lbl p h1 h2 h3 h4 h5 h6 h7 h8,
        formatResponse_ok _ _ tv dv kv lv cv zv lbl p h1 h2 h3 h4 h5 h6 h7 h8]
    by_cases hpg : req.predict_genre <;>
      simp [hpg, Except.map, List.filter_append]

/-- Claim C5: with `analyze_mfcc = false` the response carries no
"mfccs" field at all, and every other part of the outcome is exactly
what `analyze_mfcc = true` would produce (the flag only filters that
one field out of the response). -/
theorem mfcc_flag_only_removes_mfccs (req : AudioAnalyzeRequest) (w : World) :
    ((analyze_audio_fn { req with analyze_mfcc := false } w).resp =
      Except.map (List.filter (fun e => !(e.1 == "mfccs")))
        ((analyze_audio_fn { req with analyze_mfcc := true } w).resp)) ∧
    (∀ r, (analyze_audio_fn { req with analyze_mfcc := false } w).resp = .ok r →
      dictGet r "mfccs" = none) := by
  have hmain : (analyze_audio_fn { req with analyze_mfcc := false } w).resp =
      Except.map (List.filter (fun e => !(e.1 == "mfccs")))
        ((analyze_audio_fn { req with analyze_mfcc := true } w).resp) := by
    cases hd : w.download with
    | error e => simp [analyze_audio_fn, hd, Except.map]
    | ok u =>
      cases hl : w.load with
      | error e => simp [analyze_audio_fn, hd, hl, Except.map]
      | ok ein =>
        cases he : extract_african_features ein with
        | error e => simp [analyze_audio_fn, hd, hl, he, Except.map]
        | ok features =>
          simp only [analyze_audio_fn, hd, hl, he]
          exact formatResponse_mfcc_filter req features
  refine ⟨hmain, ?_⟩
  intro r hr
  rw [hmain] at hr
  rcases hok : (analyze_audio_fn { req with analyze_mfcc := true } w).resp with e | r1
  · rw [hok] at hr
    simp [Except.map] at hr
  · rw [hok] at hr
    simp only [Except.map] at hr
    have hfil : List.filter (fun e => !(e.1 == "mfccs")) r1 = r := by
      cases hr
      rfl
    rw [← hfil]
    exact dictGet_filter_self r1 "mfccs"

theorem dictGet_append_none {α : Type} (base rest : List (String × α)) (k : String)
    (h : ∀ e ∈ rest, (e.1 == k) = false) :
    dictGet (base ++ rest) k = dictGet base k := by
  unfold dictGet
  rw [List.find?_append]
  have hrest : rest.find? (fun e => e.1 == k) = none := by
    rw [List.find?_eq_none]
    intro x hx
    simp [h x hx]
  rw [hrest, Option.or_none]

/-- `formatResponse` reads only songId and the two output flags. -/
theorem formatResponse_congr (req req' : AudioAnalyzeRequest)
    (features : List (String × FVal))
    (h1 : req.songId = req'.songId)
    (h2 : req.analyze_mfcc = req'.analyze_mfcc)
    (h3 : req.predict_genre = req'.predict_genre) :
    formatResponse req features = formatResponse req' features := by
  unfold formatResponse
  rw [h1, h2, h3]

/-- The `analyze_structure` flag is never consulted. -/
theorem analyze_structure_flag_unused (req : AudioAnalyzeRequest) (w : World) (b : Bool) :
    analyze_audio_fn { req with analyze_structure := b } w = analyze_audio_fn req w := by
  cases hd : w.download with
  | error e => simp [analyze_audio_fn, hd]
  | ok u =>
    cases hl : w.load with
    | error e => simp [analyze_audio_fn, hd, hl]
    | ok ein =>
      cases he : extract_african_features ein with
      | error e => simp [analyze_audio_fn, hd, hl, he]
      | ok features =>
        simp only [analyze_audio_fn, hd, hl, he]
        rw [formatResponse_congr { req with analyze_structure := b } req features rfl rfl rfl]

/-- The two output flags only filter fields out of the full response. -/
theorem formatResponse_flags_filter (req : AudioAnalyzeRequest)
    (features : List (String × FVal)) :
    (formatResponse req features).1 =
      Except.map (List.filter (fun e =>
        (!(e.1 == "mfccs") || req.analyze_mfcc) &&
        ((!(e.1 == "predicted_genre") && !(e.1 == "confidence")) || req.predict_genre)))
        ((formatResponse { req with analyze_mfcc := true, predict_genre := true }
            features).1) := by
  rcases h1 : dictGet features "tempo" with _ | tv
  · simp [formatResponse, h1, Except.map]
  rcases h2 : dictGet features "duration" with _ | dv
  · simp [formatResponse, h1, h2, Except.map]
  rcases h3 : dictGet features "key" with _ | kv
  · simp [formatResponse, h1, h2, h3, Except.map]
  rcases h4 : dictGet features "loudness_db" with _ | lv
  · simp [formatResponse, h1, h2, h3, h4, Except.map]
  rcases h5 : dictGet features "spectral_centroid" with _ | cv
  · simp [formatResponse, h1, h2, h3, h4, h5, Except.map]
  rcases h6 : dictGet features "zero_crossing_rate" with _ | zv
  · simp [formatResponse, h1, h2, h3, h4, h5, h6, Except.map]
  rcases h7 : keyLabelOf kv with _ | lbl
  · simp [formatResponse, h1, h2, h3, h4, h5, h6, h7, Except.map]
  obtain ⟨p, h8⟩ := predict_genre_isSome features tv h1
  rw [formatResponse_ok _ _ tv dv kv lv cv zv lbl p h1 h2 h3 h4 h5 h6 h7 h8,
      formatResponse_ok _ _ tv dv kv lv cv zv lbl p h1 h2 h3 h4 h5 h6 h7 h8]
  by_cases hm : req.analyze_mfcc <;> by_cases hpg : req.predict_genre <;>
    simp [hm, hpg, Except.map, List.filter_append]

/-- The fifteen feature names, in dict insertion order. -/
def allFeatureKeys : List String :=
  ["tempo", "key", "duration", "loudness_db", "percussive_strength",
   "polyrhythm_score", "offbeat_emphasis", "harmonic_ratio", "spectral_centroid",
   "zero_crossing_rate", "mfcc_0", "mfcc_1", "mfcc_2", "mfcc_3", "mfcc_4"]

theorem featuresList_keys (ein : ExtractIn) (k : ℕ) (hm5 : 5 ≤ ein.mfccs.length) :
    (featuresList ein k).map Prod.fst = allFeatureKeys := by
  have h5t : (ein.mfccs.take 5).length = 5 := by
    rw [List.length_take]
    exact min_eq_left hm5
  obtain ⟨a1, t1, he1⟩ := List.exists_of_length_succ _ h5t
  rw [he1] at h5t
  simp only [List.length_cons, Nat.succ.injEq] at h5t
  obtain ⟨a2, t2, he2⟩ := List.exists_of_length_succ _ h5t
  rw [he2] at h5t
  simp only [List.length_cons, Nat.succ.injEq] at h5t
  obtain ⟨a3, t3, he3⟩ := List.exists_of_length_succ _ h5t
  rw [he3] at h5t
  simp only [List.length_cons, Nat.succ.injEq] at h5t
  obtain ⟨a4, t4, he4⟩ := List.exists_of_length_succ _ h5t
  rw [he4] at h5t
  simp only [List.length_cons, Nat.succ.injEq] at h5t
  obtain ⟨a5, t5, he5⟩ := List.exists_of_length_succ _ h5t
  rw [he5] at h5t
  simp only [List.length_cons, Nat.succ.injEq] at h5t
  have ht5 : t5 = [] := List.length_eq_zero.mp h5t
  unfold featuresList
  rw [he1, he2, he3, he4, he5, ht5]
  simp [allFeatureKeys, List.enum, List.enumFrom]
  exact ⟨rfl, rfl, rfl, rfl, rfl⟩

/-- When download, decode and extraction succeed and chroma has its 12
rows, the handler always produces a success response whose key field is
the in-bounds KEYS label — no finiteness condition is involved. -/
theorem analyze_success (req : AudioAnalyzeRequest) (w : World) (ein : ExtractIn)
    (fs : List (String × FVal))
    (hd : w.download = .ok ()) (hl : w.load = .ok ein)
    (he : extract_african_features ein = .ok fs)
    (hchroma : ein.chroma.length = 12) :
    ∃ (r : List (String × RVal)) (n : ℕ) (lbl : String),
      (analyze_audio_fn req w).resp = .ok r ∧
      dictGet fs "key" = some (.int (n : ℤ)) ∧ n < 12 ∧
      pyListGet KEYS (n : ℤ) = some lbl ∧ lbl ∈ KEYS ∧
      dictGet r "key" = some (RVal.str lbl) := by
  obtain ⟨k, hargk, hlen, hfs⟩ := extract_ok_inv ein fs he
  have hk12 : k < 12 := by
    have hb := npArgmax_lt _ _ hargk
    rwa [List.length_map, hchroma] at hb
  have hkK : k < KEYS.length := hk12
  have hget : KEYS.get? k = some (KEYS.get ⟨k, hkK⟩) := List.get?_eq_get hkK
  have hpy : pyListGet KEYS (k : ℤ) = some (KEYS.get ⟨k, hkK⟩) := by
    unfold pyListGet
    rw [if_pos (Int.natCast_nonneg k)]
    simp only [Int.toNat_natCast]
    exact hget
  have hmem : KEYS.get ⟨k, hkK⟩ ∈ KEYS := List.get_mem KEYS k hkK
  have h7 : keyLabelOf (.int (k : ℤ)) = some (KEYS.get ⟨k, hkK⟩) := by
    simpa [keyLabelOf] using hpy
  have htempo : dictGet fs "tempo" = some (.num ein.tempo) := by
    rw [hfs]; exact featuresList_tempo ein k
  obtain ⟨p, h8⟩ := predict_genre_isSome fs (.num ein.tempo) htempo
  have hfr := formatResponse_ok req fs (.num ein.tempo) (.num ein.duration)
      (.int (k : ℤ)) (loudnessDbVal ein) (toFVal (npMeanQ ein.centroidFrames))
      (toFVal (npMeanQ ein.zcrFrames)) (KEYS.get ⟨k, hkK⟩) p
      htempo (by rw [hfs]; exact featuresList_duration ein k)
      (by rw [hfs]; exact featuresList_key ein k)
      (by rw [hfs]; exact featuresList_loudness ein k)
      (by rw [hfs]; exact featuresList_centroid ein k)
      (by rw [hfs]; exact featuresList_zcr ein k)
      h7 h8
  refine ⟨([("songId", RVal.str req.songId),
       ("tempo", RVal.val (pyRoundF (FVal.num ein.tempo) 0)),
       ("duration", RVal.val (pyRoundF (FVal.num ein.duration) 2)),
       ("key", RVal.str (KEYS.get ⟨k, hkK⟩)),
       ("loudness_db", RVal.val (pyRoundF (loudnessDbVal ein) 2)),
       ("spectral_centroid", RVal.val (pyRoundF (toFVal (npMeanQ ein.centroidFrames)) 2)),
       ("zero_crossing_rate", RVal.val (pyRoundF (toFVal (npMeanQ ein.zcrFrames)) 4))]
      ++ (if req.analyze_mfcc then [("mfccs", RVal.sub (mfccsField fs))] else [])
      ++ (if req.predict_genre then
            [("predicted_genre", RVal.str p.genre),
             ("confidence", RVal.val (.num p.confidence))] else [])),
    k, KEYS.get (⟨k, hkK⟩ : Fin KEYS.length), ?_, ?_, hk12, hpy, hmem, ?_⟩
  · simp only [analyze_audio_fn, hd, hl, he]
    rw [hfr]
  · rw [hfs]; exact featuresList_key ein k
  · unfold dictGet
    rw [List.find?_append, List.find?_append]
    rfl

/-- Primitive outputs for a well-behaved decoded waveform. -/
def sampleEin : ExtractIn :=
  { tempo := 120
    chroma := List.replicate 12 [1]
    yHarmonic := [0, 0]
    yPercussive := [0, 0]
    pulse := [1, 1]
    mfccs := List.replicate 13 [1]
    duration := 30
    rms := [1 / 100]
    centroidFrames := [2000]
    zcrFrames := [3 / 100]
    y := [0, 0]
    log10 := fun _ => -2
    sqrt := fun _ => 0 }

/-- A world whose fetch and decode both succeed. -/
def sampleWorld : World := ⟨.ok (), .ok sampleEin⟩

/-- Claim C10: the extractor's output always carries exactly the
fifteen feature keys, and the request flags change only which response
fields appear — never which features are computed (`analyze_structure`
is not read at all). -/
theorem extractor_keys_and_flag_independence :
    (∀ (ein : ExtractIn) (fs : List (String × FVal)), 5 ≤ ein.mfccs.length →
      extract_african_features ein = .ok fs → fs.map Prod.fst = allFeatureKeys) ∧
    (∀ (req req' : AudioAnalyzeRequest) (w : World),
      (analyze_audio_fn req w).featuresComputed
        = (analyze_audio_fn req' w).featuresComputed) ∧
    (∀ (req : AudioAnalyzeRequest) (w : World),
      (analyze_audio_fn req w).resp =
        Except.map (List.filter (fun e =>
          (!(e.1 == "mfccs") || req.analyze_mfcc) &&
          ((!(e.1 == "predicted_genre") && !(e.1 == "confidence"))
            || req.predict_genre)))
          ((analyze_audio_fn { req with analyze_mfcc := true, predict_genre := true }
              w).resp)) ∧
    (∀ (req : AudioAnalyzeRequest) (w : World) (b : Bool),
      analyze_audio_fn { req with analyze_structure := b } w
        = analyze_audio_fn req w) := by
  refine ⟨?_, ?_, ?_, analyze_structure_flag_unused⟩
  · intro ein fs hm5 he
    obtain ⟨k, _, _, hfs⟩ := extract_ok_inv ein fs he
    rw [hfs]
    exact featuresList_keys ein k hm5
  · intro req req' w
    cases hd : w.download with
    | error e => simp [analyze_audio_fn, hd]
    | ok u =>
      cases hl : w.load with
      | error e => simp [analyze_audio_fn, hd, hl]
      | ok ein =>
        cases he : extract_african_features ein with
        | error e => simp [analyze_audio_fn, hd, hl, he]
        | ok features => simp [analyze_audio_fn, hd, hl, he]
  · intro req w
    cases hd : w.download with
    | error e => simp [analyze_audio_fn, hd, Except.map]
    | ok u =>
      cases hl : w.load with
      | error e => simp [analyze_audio_fn, hd, hl, Except.map]
      | ok ein =>
        cases he : extract_african_features ein with
        | error e => simp [analyze_audio_fn, hd, hl, he, Except.map]
        | ok features =>
          simp only [analyze_audio_fn, hd, hl, he]
          exact formatResponse_flags_filter req features

theorem extractor_keys_and_flag_independence_witness :
    (featuresList sampleEin 0).map Prod.fst = allFeatureKeys :=
  extractor_keys_and_flag_independence.1 sampleEin (featuresList sampleEin 0)
    (by decide) rfl

/-- Claim C8: the extractor's key is an integer in 0..11, so the
handler's KEYS lookup is in bounds and the response key field is one of
the 12 fixed labels (librosa guarantees the 12 chroma rows). -/
theorem key_index_always_in_bounds (req : AudioAnalyzeRequest) (w : World)
    (ein : ExtractIn) (fs : List (String × FVal))
    (hd : w.download = .ok ()) (hl : w.load = .ok ein)
    (he : extract_african_features ein = .ok fs)
    (hchroma : ein.chroma.length = 12) :
    ∃ (r : List (String × RVal)) (n : ℕ) (lbl : String),
      (analyze_audio_fn req w).resp = .ok r ∧
      dictGet fs "key" = some (.int (n : ℤ)) ∧ n < 12 ∧
      pyListGet KEYS (n : ℤ) = some lbl ∧ lbl ∈ KEYS ∧
      dictGet r "key" = some (RVal.str lbl) :=
  analyze_success req w ein fs hd hl he hchroma

theorem key_index_always_in_bounds_witness :
    ∃ (r : List (String × RVal)) (n : ℕ) (lbl : String),
      (analyze_audio_fn sampleRequest sampleWorld).resp = .ok r ∧
      dictGet (featuresList sampleEin 0) "key" = some (.int (n : ℤ)) ∧ n < 12 ∧
      pyListGet KEYS (n : ℤ) = some lbl ∧ lbl ∈ KEYS ∧
      dictGet r "key" = some (RVal.str lbl) :=
  key_index_always_in_bounds sampleRequest sampleWorld sampleEin
    (featuresList sampleEin 0) rfl rfl rfl (by decide)

/-- Primitive outputs of a waveform holding the sample `-1e-10`: the
elementwise division `y_harmonic / (y + 1e-10)` hits a zero denominator
and `harmonic_ratio` comes out non-finite. -/
def nanHarmonicEin : ExtractIn :=
  { tempo := 100
    chroma := List.replicate 12 [1]
    yHarmonic := [0]
    yPercussive := [0]
    pulse := [1, 1]
    mfccs := List.replicate 13 [1]
    duration := 5
    rms := [1 / 100]
    centroidFrames := [2000]
    zcrFrames := [3 / 100]
    y := [-epsG]
    log10 := fun _ => -2
    sqrt := fun _ => 0 }

/-- A world that decodes to the NaN-producing waveform. -/
def nanWorld : World := ⟨.ok (), .ok nanHarmonicEin⟩

set_option maxRecDepth 4000 in
/-- Counterexample to claim C6: this run derives a non-finite
harmonic_ratio, yet the pipeline returns a success response — there is
no FeatureComputationError (no finiteness check exists anywhere). -/
theorem nonfinite_value_does_not_fail_pipeline :
    harmonicRatioVal nanHarmonicEin = FVal.nonFinite ∧
    dictGet (((analyze_audio_fn sampleRequest nanWorld).featuresComputed).getD [])
      "harmonic_ratio" = some FVal.nonFinite ∧
    exceptOk (analyze_audio_fn sampleRequest nanWorld).resp = true := by
  refine ⟨by decide, by decide, by decide⟩

/-- Claim C6 (amended): the code performs no finiteness check and has
no feature-stage error: whenever download, decode and extraction
succeed (chroma with its 12 rows), the handler returns a success
response, whatever non-finite values the derived features contain. -/
theorem pipeline_succeeds_regardless_of_finiteness
    (req : AudioAnalyzeRequest) (w : World) (ein : ExtractIn)
    (fs : List (String × FVal))
    (hd : w.download = .ok ()) (hl : w.load = .ok ein)
    (he : extract_african_features ein = .ok fs)
    (hchroma : ein.chroma.length = 12) :
    exceptOk (analyze_audio_fn req w).resp = true := by
  obtain ⟨r, n, lbl, hresp, _⟩ := analyze_success req w ein fs hd hl he hchroma
  rw [hresp]
  rfl

theorem pipeline_succeeds_regardless_of_finiteness_witness :
    exceptOk (analyze_audio_fn sampleRequest nanWorld).resp = true :=
  pipeline_succeeds_regardless_of_finiteness sampleRequest nanWorld nanHarmonicEin
    (featuresList nanHarmonicEin 0) rfl rfl rfl (by decide)

theorem zip_div_allzero (hs ys : List ℚ) (h0 : ∀ s ∈ ys, s = 0) :
    ∃ rs : List ℚ,
      (List.zipWith (fun h s => if s + epsG = 0 then FVal.nonFinite
          else FVal.num (h / (s + epsG))) hs ys).mapM FVal.toRat? = some rs ∧
      rs.length = min hs.length ys.length := by
  induction hs generalizing ys with
  | nil => exact ⟨[], rfl, by simp⟩
  | cons h hs ih =>
    rcases ys with _ | ⟨s, ys⟩
    · exact ⟨[], rfl, by simp⟩
    · have hs0 : s = 0 := h0 s (List.mem_cons_self _ _)
      have hne : ¬ (s + epsG = 0) := by
        rw [hs0]
        norm_num [epsG]
      obtain ⟨rs, hrs, hlen⟩ := ih ys (fun x hx => h0 x (List.mem_cons_of_mem _ hx))
      refine ⟨h / (s + epsG) :: rs, ?_, ?_⟩
      · simp only [List.zipWith_cons_cons, if_neg hne, List.mapM_cons, hrs,
          FVal.toRat?, Option.pure_def, Option.bind_eq_bind, Option.some_bind]
      · simp only [List.length_cons, hlen]
        omega

/-- Claim C7: on an all-zero waveform both ε-guarded derivations stay
finite: the loudness logarithm argument is positive and every divisor
`y[i] + 1e-10` equals `1e-10 ≠ 0`. -/
theorem epsilon_guards_all_zero_waveform (ein : ExtractIn)
    (hy : ein.y ≠ []) (hy0 : ∀ s ∈ ein.y, s = 0)
    (hlen : ein.yHarmonic.length = ein.y.length)
    (hrms : ein.rms ≠ []) (hrms0 : ∀ x ∈ ein.rms, 0 ≤ x) :
    (∃ q, loudnessDbVal ein = .num q) ∧ (∃ q, harmonicRatioVal ein = .num q) := by
  constructor
  · have hm : npMeanQ ein.rms = some (ein.rms.sum / (ein.rms.length : ℚ)) := by
      unfold npMeanQ
      rw [if_neg (by simpa [List.isEmpty_iff] using hrms)]
    have hm0 : 0 ≤ ein.rms.sum / (ein.rms.length : ℚ) :=
      div_nonneg (List.sum_nonneg hrms0) (by positivity)
    have hpos : 0 < ein.rms.sum / (ein.rms.length : ℚ) + epsG := by
      have : (0 : ℚ) < epsG := by norm_num [epsG]
      linarith
    refine ⟨10 * ein.log10 (ein.rms.sum / (ein.rms.length : ℚ) + epsG), ?_⟩
    unfold loudnessDbVal
    rw [hm]
    simp only [if_pos hpos]
  · obtain ⟨rs, hrs, hlenrs⟩ := zip_div_allzero ein.yHarmonic ein.y hy0
    have hylen : 0 < ein.y.length := List.length_pos.mpr hy
    have hrsne : ¬ rs.isEmpty = true := by
      rw [List.isEmpty_iff]
      intro hnil
      rw [hnil] at hlenrs
      simp only [List.length_nil] at hlenrs
      rw [hlen] at hlenrs
      omega
    refine ⟨rs.sum / (rs.length : ℚ), ?_⟩
    unfold harmonicRatioVal fvMean
    rw [hrs]
    show (match (if rs.isEmpty = true then (none : Option ℚ)
          else some (rs.sum / (rs.length : ℚ))) with
        | none => FVal.nonFinite
        | some q => FVal.num q) = FVal.num (rs.sum / (rs.length : ℚ))
    rw [if_neg hrsne]

/-- Primitive outputs of the all-zero waveform. -/
def zeroEin : ExtractIn :=
  { tempo := 0
    chroma := List.replicate 12 [1]
    yHarmonic := [0]
    yPercussive := [0]
    pulse := [0, 0]
    mfccs := List.replicate 13 [0]
    duration := 1
    rms := [0]
    centroidFrames := [0]
    zcrFrames := [0]
    y := [0]
    log10 := fun _ => -10
    sqrt := fun _ => 0 }

theorem epsilon_guards_all_zero_waveform_witness :
    (∃ q, loudnessDbVal zeroEin = .num q) ∧
    (∃ q, harmonicRatioVal zeroEin = .num q) :=
  epsilon_guards_all_zero_waveform zeroEin (by decide) (by decide) (by decide)
    (by decide) (by decide)

theorem mfcc_flag_only_removes_mfccs_witness :
    (analyze_audio_fn { sampleRequest with analyze_mfcc := false } sampleWorld).resp =
      Except.map (List.filter (fun e => !(e.1 == "mfccs")))
        ((analyze_audio_fn { sampleRequest with analyze_mfcc := true } sampleWorld).resp) :=
  (mfcc_flag_only_removes_mfccs sampleRequest sampleWorld).1

end ClaimTheorems
